import Mathlib

/-!
A shallow embedding of the `misssonder/calculator` crate
(lexer → Pratt parser → AST → tree-walking evaluator) and proofs about it.

Modelling conventions:
* Rust `i64` is `Int` together with explicit range checks against
  `i64Min`/`i64Max`; `checked_*` operations return `Option Int`.
* Unchecked `i64` arithmetic (plain `-`, unary `-`, `/`, `%`, the factorial
  product) is modelled with the debug-profile semantics of `rustc`: an
  overflowing operation aborts.  The evaluator therefore returns an
  `Outcome`, which is either a `Value`, an `Error`, or `panic` (arithmetic
  overflow abort).  Note that `/` and `%` overflow-check unconditionally in
  Rust (both profiles), while `-`, unary `-` and `*` wrap in release mode;
  either way no `Error` value is produced on these paths.
* Rust `f64` is modelled as an exact rational together with the IEEE special
  values (signed infinity, NaN): `F64.finite q` carries `q : ℚ`.  Arithmetic
  on finite values is exact (no rounding, no overflow to infinity), the
  special-value rules for zero divisors follow IEEE 754.  `powf` with a
  non-integer exponent and pow/rem on special values are outside the exact
  rational model and coarsely return `nan`; no theorem below depends on
  those cases.  The conversion `i64 as f64` is modelled exactly.
* Rust `char::is_whitespace` is Unicode-aware; `Char.isWhitespace` covers
  the ASCII whitespace actually exercised here.
* The recursive lexer loop and the recursive-descent parser are written
  with an explicit fuel parameter.  Every lexer step consumes at least one
  character and every parser recursion first consumes at least one token,
  so the generous budgets passed by `lex` and `parseString` are never
  exhausted on any input; fuel exists only to make the recursion
  structural.
-/

/-- `error.rs`: `enum Error { Parse(String), Value(String) }`. -/
inductive Error where
  | Parse : String → Error
  | Value : String → Error
deriving DecidableEq, Repr

/-- `lexer.rs`: `enum Token`. -/
inductive Token where
  | number : String → Token
  | asterisk : Token
  | caret : Token
  | closeParen : Token
  | equal : Token
  | exclamation : Token
  | greaterThan : Token
  | greaterThanOrEqual : Token
  | lessOrGreaterThan : Token
  | lessThan : Token
  | lessThanOrEqual : Token
  | minus : Token
  | openParen : Token
  | percent : Token
  | plus : Token
  | slash : Token
deriving DecidableEq, Repr

/-- `impl Display for Token` in `lexer.rs`. -/
def Token.display : Token → String
  | .number s => s
  | .asterisk => "*"
  | .caret => "^"
  | .equal => "="
  | .greaterThan => ">"
  | .greaterThanOrEqual => ">="
  | .lessOrGreaterThan => "<>"
  | .lessThan => "<"
  | .lessThanOrEqual => "<="
  | .minus => "-"
  | .percent => "%"
  | .plus => "+"
  | .slash => "/"
  | .openParen => "("
  | .closeParen => ")"
  | .exclamation => "!"

/-- `Lexer::consume_space`: drop a maximal run of whitespace. -/
def consumeSpace (cs : List Char) : List Char :=
  cs.dropWhile (fun c => c.isWhitespace)

/-- `Lexer::scan_number` (called with a digit at the head): a maximal digit
run, optionally a single `.`, then a further maximal digit run. -/
def scanNumber (cs : List Char) : String × List Char :=
  let intPart := cs.takeWhile (fun c => c.isDigit)
  let rest := cs.dropWhile (fun c => c.isDigit)
  match rest with
  | '.' :: rest2 =>
    let frac := rest2.takeWhile (fun c => c.isDigit)
    (⟨intPart ++ '.' :: frac⟩, rest2.dropWhile (fun c => c.isDigit))
  | _ => (⟨intPart⟩, rest)

/-- The one-character symbol table inside `Lexer::scan_symbol`. -/
def baseSymbol : Char → Option Token
  | '=' => some .equal
  | '>' => some .greaterThan
  | '<' => some .lessThan
  | '+' => some .plus
  | '-' => some .minus
  | '*' => some .asterisk
  | '/' => some .slash
  | '^' => some .caret
  | '%' => some .percent
  | '(' => some .openParen
  | ')' => some .closeParen
  | '!' => some .exclamation
  | _ => none

/-- `Lexer::scan_symbol`: one-character lookup, then the greedy two-character
lookahead for `<>`, `<=`, `>=`.  Returns the token and the remaining input;
`none` means the character is not a symbol (the caller reports it). -/
def scanSymbol (c : Char) (rest : List Char) : Option (Token × List Char) :=
  match baseSymbol c with
  | none => none
  | some t =>
    match t, rest with
    | .lessThan, '>' :: r => some (.lessOrGreaterThan, r)
    | .lessThan, '=' :: r => some (.lessThanOrEqual, r)
    | .greaterThan, '=' :: r => some (.greaterThanOrEqual, r)
    | t, r => some (t, r)

/-- One call of `<Lexer as Iterator>::next`: skip whitespace, scan a number
or a symbol; an unrecognized character is consumed and reported as a
`Parse` error item.  `none` is the end of the token sequence. -/
def lexNext (cs : List Char) : Option (Except Error Token × List Char) :=
  match consumeSpace cs with
  | [] => none
  | c :: rest =>
    if c.isDigit then
      let r := scanNumber (c :: rest)
      some (.ok (.number r.1), r.2)
    else
      match scanSymbol c rest with
      | some (t, rest2) => some (.ok t, rest2)
      | none => some (.error (.Parse ("Unexpected character " ++ ⟨[c]⟩)), rest)

/-- Driving the lexer iterator to exhaustion.  Each `lexNext` step consumes
at least one character, so `fuel = length + 1` never runs out. -/
def tokenize : Nat → List Char → List (Except Error Token)
  | 0, _ => []
  | fuel + 1, cs =>
    match lexNext cs with
    | none => []
    | some (r, rest) => r :: tokenize fuel rest

/-- The full token sequence produced by `Lexer::new(input)`. -/
def lex (s : String) : List (Except Error Token) :=
  tokenize (s.length + 1) s.toList

/-- The `f64` model: an exact rational, or an IEEE special value.
`inf true` is negative infinity. -/
inductive F64 where
  | finite : Rat → F64
  | inf : Bool → F64
  | nan : F64
deriving DecidableEq, Repr

/-- `i64 as f64` (exact in this model; the actual conversion rounds only
beyond `2^53`, which no claim exercises). -/
def F64.ofInt (i : Int) : F64 := .finite i

/-- IEEE-shaped addition, exact on finite values. -/
def F64.add : F64 → F64 → F64
  | .nan, _ | _, .nan => .nan
  | .finite a, .finite b => .finite (a + b)
  | .inf s, .inf t => if s = t then .inf s else .nan
  | .inf s, .finite _ => .inf s
  | .finite _, .inf t => .inf t

/-- IEEE-shaped subtraction, exact on finite values. -/
def F64.sub : F64 → F64 → F64
  | .nan, _ | _, .nan => .nan
  | .finite a, .finite b => .finite (a - b)
  | .inf s, .inf t => if s = t then .nan else .inf s
  | .inf s, .finite _ => .inf s
  | .finite _, .inf t => .inf !t

/-- IEEE-shaped multiplication, exact on finite values. -/
def F64.mul : F64 → F64 → F64
  | .nan, _ | _, .nan => .nan
  | .finite a, .finite b => .finite (a * b)
  | .inf s, .inf t => .inf (s != t)
  | .inf s, .finite b => if b = 0 then .nan else .inf (s != decide (b < 0))
  | .finite a, .inf t => if a = 0 then .nan else .inf (decide (a < 0) != t)

/-- IEEE-shaped division, exact on finite values: a zero divisor yields a
signed infinity (or NaN for `0/0`), never an error.  The model has no
negative zero, so the sign of a zero result is ignored. -/
def F64.div : F64 → F64 → F64
  | .nan, _ | _, .nan => .nan
  | .finite a, .finite b =>
    if b = 0 then (if a = 0 then .nan else .inf (decide (a < 0))) else .finite (a / b)
  | .finite _, .inf _ => .finite 0
  | .inf s, .finite b => .inf (s != decide (b < 0))
  | .inf _, .inf _ => .nan

/-- Truncation toward zero of a rational, as `f64::trunc`. -/
def Rat.truncInt (q : Rat) : Int := Int.tdiv q.num q.den

/-- Rust's `%` on `f64` (truncated remainder), IEEE-shaped: `x % 0` and
`inf % y` are NaN, `x % inf = x`. -/
def F64.rem : F64 → F64 → F64
  | .nan, _ | _, .nan => .nan
  | .inf _, _ => .nan
  | .finite a, .inf _ => .finite a
  | .finite a, .finite b =>
    if b = 0 then .nan else .finite (a - b * Rat.truncInt (a / b))

/-- Unary negation on `f64`. -/
def F64.neg : F64 → F64
  | .finite a => .finite (-a)
  | .inf s => .inf !s
  | .nan => .nan

/-- `f64::powf`, restricted to the cases the rational model can express
exactly: a finite base with an integer-valued finite exponent (with
IEEE's `pow(0, negative) = +inf`).  Non-integer exponents and special
operands are outside the model and collapse to `nan`; no theorem below
depends on those cases. -/
def F64.pow : F64 → F64 → F64
  | .finite a, .finite b =>
    if b.den = 1 then
      if a = 0 ∧ b.num < 0 then .inf false else .finite (a ^ b.num)
    else .nan
  | _, _ => .nan

/-- `ast.rs`: `enum Literal { Integer(i64), Float(f64) }`. -/
inductive Literal where
  | Integer : Int → Literal
  | Float : F64 → Literal
deriving DecidableEq, Repr

mutual
/-- `ast.rs`: `enum Expression { Literal(Literal), Operation(Operation) }`. -/
inductive Expression where
  | Literal : Literal → Expression
  | Operation : Operation → Expression

/-- `ast.rs`: `enum Operation`. -/
inductive Operation where
  | Add : Expression → Expression → Operation
  | Assert : Expression → Operation
  | Divide : Expression → Expression → Operation
  | Exponentiate : Expression → Expression → Operation
  | Factorial : Expression → Operation
  | Modulo : Expression → Expression → Operation
  | Multiply : Expression → Expression → Operation
  | Negate : Expression → Operation
  | Subtract : Expression → Expression → Operation
end

/-- `lib.rs`: `enum Value { Integer(i64), Float(f64) }`. -/
inductive Value where
  | Integer : Int → Value
  | Float : F64 → Value
deriving DecidableEq, Repr

/-- `impl From<ast::Literal> for Value`. -/
def Value.ofLiteral : Literal → Value
  | .Integer i => .Integer i
  | .Float f => .Float f

/-- The decimal digits of a proper fraction `r / d` (`0 ≤ r < d`),
emitted until the remainder vanishes; the fuel bounds the digit count
(ample for every terminating decimal exercised here). -/
def fracDigits : Nat → Nat → Nat → String
  | 0, _, _ => ""
  | _ + 1, 0, _ => ""
  | fuel + 1, r, d => Nat.repr (r * 10 / d) ++ fracDigits fuel (r * 10 % d) d

/-- Decimal rendering of a rational, matching Rust's `Display` for `f64`
on terminating decimals (`2.0` prints as `2`, `1.5` as `1.5`). -/
def Rat.displayDec (q : Rat) : String :=
  let sign := if q < 0 then "-" else ""
  let n := q.num.natAbs
  let ip := n / q.den
  let fr := n % q.den
  if fr = 0 then sign ++ Nat.repr ip
  else sign ++ Nat.repr ip ++ "." ++ fracDigits 64 fr q.den

/-- `impl Display for Value` in `lib.rs` (`f64` Display for floats). -/
def Value.display : Value → String
  | .Integer i => toString i
  | .Float (.finite q) => q.displayDec
  | .Float (.inf false) => "inf"
  | .Float (.inf true) => "-inf"
  | .Float .nan => "NaN"

/-- `i64::MIN`. -/
def i64Min : Int := -(2 ^ 63)

/-- `i64::MAX`. -/
def i64Max : Int := 2 ^ 63 - 1

/-- Whether an integer is representable as an `i64`. -/
def fitsI64 (n : Int) : Bool := decide (i64Min ≤ n) && decide (n ≤ i64Max)

/-- `i64::checked_add`. -/
def checked_add (a b : Int) : Option Int :=
  if fitsI64 (a + b) then some (a + b) else none

/-- `i64::checked_mul`. -/
def checked_mul (a b : Int) : Option Int :=
  if fitsI64 (a * b) then some (a * b) else none

/-- `i64::checked_pow`.  The standard-library binary exponentiation
checks every intermediate multiplication; since each intermediate power
it computes divides the final result (and squares of bases of magnitude
at most 1 never overflow), it succeeds exactly when the mathematical
power is representable. -/
def checked_pow (a : Int) (e : Nat) : Option Int :=
  if fitsI64 (a ^ e) then some (a ^ e) else none

/-- The evaluator's result: a value, an `Error`, or the abort of an
unchecked arithmetic operation (`panic` under the debug profile). -/
inductive Outcome where
  | ok : Value → Outcome
  | err : Error → Outcome
  | panic : Outcome
deriving DecidableEq, Repr

/-- Short-circuiting sequencing of evaluation (`?` in the Rust source). -/
def Outcome.bind (o : Outcome) (f : Value → Outcome) : Outcome :=
  match o with
  | .ok v => f v
  | .err e => .err e
  | .panic => .panic

/-- `(1..=n).product::<i64>()` under debug-profile overflow checks: a left
fold multiplying from 1, aborting (`none`) at the first overflowing
multiplication. -/
def i64Prod (l : List Int) : Option Int :=
  l.foldl (fun acc x => acc.bind fun a => checked_mul a x) (some 1)

/-- `Calculator::calculate_expression` in `lib.rs`, arm for arm.  Note the
internal cross-naming of the source: the `Divide` variant subtracts and
the `Subtract` variant divides. -/
def calculate_expression : Expression → Outcome
  | .Literal l => .ok (Value.ofLiteral l)
  | .Operation (.Add l r) =>
    (calculate_expression l).bind fun lv =>
    (calculate_expression r).bind fun rv =>
    match lv, rv with
    | .Integer a, .Integer b =>
      match checked_add a b with
      | some n => .ok (.Integer n)
      | none => .err (.Value "Integer overflow")
    | .Float a, .Float b => .ok (.Float (a.add b))
    | .Integer a, .Float b => .ok (.Float ((F64.ofInt a).add b))
    | .Float a, .Integer b => .ok (.Float (a.add (F64.ofInt b)))
  | .Operation (.Assert l) => calculate_expression l
  | .Operation (.Divide l r) =>
    (calculate_expression l).bind fun lv =>
    (calculate_expression r).bind fun rv =>
    match lv, rv with
    | .Integer a, .Integer b =>
      if fitsI64 (a - b) then .ok (.Integer (a - b)) else .panic
    | .Float a, .Float b => .ok (.Float (a.sub b))
    | .Integer a, .Float b => .ok (.Float ((F64.ofInt a).sub b))
    | .Float a, .Integer b => .ok (.Float (a.sub (F64.ofInt b)))
  | .Operation (.Exponentiate l r) =>
    (calculate_expression l).bind fun lv =>
    (calculate_expression r).bind fun rv =>
    match lv, rv with
    | .Integer a, .Integer b =>
      if 0 ≤ b then
        match checked_pow a (b % 2 ^ 32).toNat with
        | some n => .ok (.Integer n)
        | none => .err (.Value "Integer overflow")
      else .ok (.Float ((F64.ofInt a).pow (F64.ofInt b)))
    | .Float a, .Float b => .ok (.Float (a.pow b))
    | .Integer a, .Float b => .ok (.Float ((F64.ofInt a).pow b))
    | .Float a, .Integer b => .ok (.Float (a.pow (F64.ofInt b)))
  | .Operation (.Factorial l) =>
    (calculate_expression l).bind fun v =>
    match v with
    | .Integer i =>
      if i < 0 then .err (.Value "Can't take factorial of negative number")
      else
        match i64Prod ((List.range' 1 i.toNat).map Int.ofNat) with
        | some n => .ok (.Integer n)
        | none => .panic
    | other => .err (.Value ("Can't take factorial of " ++ other.display))
  | .Operation (.Modulo l r) =>
    (calculate_expression l).bind fun lv =>
    (calculate_expression r).bind fun rv =>
    match lv, rv with
    | .Integer a, .Integer b =>
      if b = 0 then .err (.Value "Can't divide by zero")
      else if a = i64Min ∧ b = -1 then .panic
      else .ok (.Integer (Int.tmod a b))
    | .Float a, .Float b => .ok (.Float (a.rem b))
    | .Integer a, .Float b => .ok (.Float ((F64.ofInt a).rem b))
    | .Float a, .Integer b => .ok (.Float (a.rem (F64.ofInt b)))
  | .Operation (.Multiply l r) =>
    (calculate_expression l).bind fun lv =>
    (calculate_expression r).bind fun rv =>
    match lv, rv with
    | .Integer a, .Integer b =>
      match checked_mul a b with
      | some n => .ok (.Integer n)
      | none => .err (.Value "Integer overflow")
    | .Float a, .Float b => .ok (.Float (a.mul b))
    | .Integer a, .Float b => .ok (.Float ((F64.ofInt a).mul b))
    | .Float a, .Integer b => .ok (.Float (a.mul (F64.ofInt b)))
  | .Operation (.Negate l) =>
    (calculate_expression l).bind fun v =>
    match v with
    | .Integer i => if fitsI64 (-i) then .ok (.Integer (-i)) else .panic
    | .Float f => .ok (.Float f.neg)
  | .Operation (.Subtract l r) =>
    (calculate_expression l).bind fun lv =>
    (calculate_expression r).bind fun rv =>
    match lv, rv with
    | .Integer a, .Integer b =>
      if b = 0 then .err (.Value "Can't divide by zero")
      else if a = i64Min ∧ b = -1 then .panic
      else .ok (.Integer (Int.tdiv a b))
    | .Float a, .Float b => .ok (.Float (a.div b))
    | .Integer a, .Float b => .ok (.Float ((F64.ofInt a).div b))
    | .Float a, .Integer b => .ok (.Float (a.div (F64.ofInt b)))

/-- `parse.rs`: `const ASSOC_LEFT: u8 = 1`. -/
def ASSOC_LEFT : Nat := 1

/-- `parse.rs`: `const ASSOC_RIGHT: u8 = 0`. -/
def ASSOC_RIGHT : Nat := 0

/-- `parse.rs`: `enum PrefixOperator` (named `PrefixOp` here). -/
inductive PrefixOp where
  | Minus : PrefixOp
  | Plus : PrefixOp
deriving DecidableEq, Repr

/-- `Operator::from` for the prefix-operator table. -/
def PrefixOp.ofToken : Token → Option PrefixOp
  | .minus => some .Minus
  | .plus => some .Plus
  | _ => none

/-- Prefix operators have precedence 9. -/
def PrefixOp.prec : PrefixOp → Nat := fun _ => 9

/-- Prefix operators are right-associative. -/
def PrefixOp.assoc : PrefixOp → Nat := fun _ => ASSOC_RIGHT

/-- `PrefixOperator::build`. -/
def PrefixOp.build : PrefixOp → Expression → Expression
  | .Minus, l => .Operation (.Negate l)
  | .Plus, l => .Operation (.Assert l)

/-- `parse.rs`: `enum InfixOperator` (named `InfixOp` here). -/
inductive InfixOp where
  | Add : InfixOp
  | Divide : InfixOp
  | Exponentiate : InfixOp
  | Multiply : InfixOp
  | Subtract : InfixOp
  | Modulo : InfixOp
deriving DecidableEq, Repr

/-- `Operator::from` for the infix-operator table.  This is the source's
cross-naming: the `-` token maps to the variant named `Divide` and the `/`
token to the variant named `Subtract`. -/
def InfixOp.ofToken : Token → Option InfixOp
  | .plus => some .Add
  | .minus => some .Divide
  | .caret => some .Exponentiate
  | .asterisk => some .Multiply
  | .slash => some .Subtract
  | .percent => some .Modulo
  | _ => none

/-- `InfixOperator::assoc`: only exponentiation is right-associative. -/
def InfixOp.assoc : InfixOp → Nat
  | .Exponentiate => ASSOC_RIGHT
  | _ => ASSOC_LEFT

/-- `InfixOperator::prec`. -/
def InfixOp.prec : InfixOp → Nat
  | .Add | .Subtract => 5
  | .Multiply | .Divide | .Modulo => 6
  | .Exponentiate => 7

/-- `InfixOperator::build`. -/
def InfixOp.build : InfixOp → Expression → Expression → Expression
  | .Add, l, r => .Operation (.Add l r)
  | .Divide, l, r => .Operation (.Divide l r)
  | .Exponentiate, l, r => .Operation (.Exponentiate l r)
  | .Multiply, l, r => .Operation (.Multiply l r)
  | .Subtract, l, r => .Operation (.Subtract l r)
  | .Modulo, l, r => .Operation (.Modulo l r)

/-- `parse.rs`: `enum PostfixOperator` (named `PostfixOp` here). -/
inductive PostfixOp where
  | Factorial : PostfixOp
deriving DecidableEq, Repr

/-- `Operator::from` for the postfix-operator table. -/
def PostfixOp.ofToken : Token → Option PostfixOp
  | .exclamation => some .Factorial
  | _ => none

/-- The postfix operator has precedence 8. -/
def PostfixOp.prec : PostfixOp → Nat := fun _ => 8

/-- The postfix operator is left-associative. -/
def PostfixOp.assoc : PostfixOp → Nat := fun _ => ASSOC_LEFT

/-- `PostfixOperator::build`. -/
def PostfixOp.build : PostfixOp → Expression → Expression
  | .Factorial, l => .Operation (.Factorial l)

/-- The parser's state: the remaining items of the (peekable) lexer. -/
abbrev Tokens := List (Except Error Token)

/-- `Parser::next`: pull the next lexer item; the end of the sequence is an
"Unexpected end of input" parse error, a lexical error item propagates. -/
def pNext : Tokens → Except Error (Token × Tokens)
  | [] => .error (.Parse "Unexpected end of input")
  | .ok t :: rest => .ok (t, rest)
  | .error e :: _ => .error e

/-- `Parser::peek`: `self.lexer.peek().cloned().transpose()`; does not
consume. -/
def pPeek : Tokens → Except Error (Option Token)
  | [] => .ok none
  | .ok t :: _ => .ok (some t)
  | .error e :: _ => .error e

/-- `Parser::next_expect`: with `some t`, demand exactly `t` next; with
`none`, demand exhaustion, reporting any leftover token.  (The `none` form
is never called by this crate's `parse`.) -/
def next_expect (ts : Tokens) (expect : Option Token) : Except Error (Option Token × Tokens) :=
  match expect with
  | some t =>
    (pNext ts).bind fun r =>
      if r.1 = t then .ok (some r.1, r.2)
      else .error (.Parse ("Expected token " ++ t.display ++ ", found " ++ r.1.display))
  | none =>
    match pPeek ts with
    | .error e => .error e
    | .ok (some tok) => .error (.Parse ("Unexpected token " ++ tok.display))
    | .ok none => .ok (none, ts)

/-- `Parser::next_if_operator::<O>`: peek, discarding a lexical error via
`unwrap_or(None)`; on a matching operator of at-least-minimal precedence,
consume the token.  Returns the operator (if any) and the resulting state. -/
def next_if_operator {O : Type} (ofTok : Token → Option O) (prec : O → Nat)
    (ts : Tokens) (min_prec : Nat) : Option O × Tokens :=
  match pPeek ts with
  | .error _ => (none, ts)
  | .ok none => (none, ts)
  | .ok (some t) =>
    match ofTok t with
    | none => (none, ts)
    | some o => if min_prec ≤ prec o then (some o, ts.tail) else (none, ts)

/-- `"1".parse::<i64>()` for the all-digit texts the lexer produces: the
digits' value if it fits in `i64` (the token carries no sign). -/
def digitsToNat (l : List Char) : Nat :=
  l.foldl (fun a c => a * 10 + (c.toNat - '0'.toNat)) 0

/-- `str::parse::<i64>` on an all-ASCII-digit string. -/
def parse_i64 (s : String) : Option Int :=
  if s.isEmpty then none
  else if (digitsToNat s.toList : Int) ≤ i64Max then some (digitsToNat s.toList) else none

/-- `str::parse::<f64>` on the texts the lexer produces (`digits`,
`digits.`, `digits.digits`), read as an exact rational. -/
def parse_f64 (s : String) : Option F64 :=
  match s.toList.span (fun c => c.isDigit) with
  | (ds, []) => if ds.isEmpty then none else some (.finite (digitsToNat ds))
  | (ds, '.' :: fs) =>
    if ds.isEmpty then none
    else if fs.all (fun c => c.isDigit) then
      some (.finite ((digitsToNat ds : Rat) + (digitsToNat fs : Rat) / (10 ^ fs.length : Rat)))
    else none
  | _ => none

mutual
/-- `Parser::parse_expression`: precedence climbing.  The fuel only makes
the recursion structural; every recursive call first consumes a token. -/
def parse_expression (fuel : Nat) (min_prec : Nat) (ts : Tokens) :
    Except Error (Expression × Tokens) :=
  match fuel with
  | 0 => .error (.Parse "recursion limit exceeded")
  | fuel + 1 =>
    let lhs :=
      match next_if_operator PrefixOp.ofToken PrefixOp.prec ts min_prec with
      | (some op, ts1) =>
        (parse_expression fuel (op.prec + op.assoc) ts1).map
          (fun (r : Expression × Tokens) => (op.build r.1, r.2))
      | (none, ts1) => parse_expression_atom fuel ts1
    lhs.bind fun r =>
      (parse_postfix_ops fuel min_prec r.1 r.2).bind fun r2 =>
        parse_infix_ops fuel min_prec r2.1 r2.2

/-- `Parser::parse_expression_atom`: a numeric literal (classified as
`Integer` when all-digit, else `Float`) or a parenthesized expression. -/
def parse_expression_atom (fuel : Nat) (ts : Tokens) :
    Except Error (Expression × Tokens) :=
  (pNext ts).bind fun r =>
    match r.1 with
    | .number n =>
      if n.toList.all (fun c => c.isDigit) then
        match parse_i64 n with
        | some i => .ok (.Literal (.Integer i), r.2)
        | none => .error (.Parse "number too large to fit in target type")
      else
        match parse_f64 n with
        | some f => .ok (.Literal (.Float f), r.2)
        | none => .error (.Parse "invalid float literal")
    | .openParen =>
      match fuel with
      | 0 => .error (.Parse "recursion limit exceeded")
      | fuel + 1 =>
        (parse_expression fuel 0 r.2).bind fun r2 =>
          (next_expect r2.2 (some .closeParen)).map fun r3 => (r2.1, r3.2)
    | t => .error (.Parse ("Expected expression atom, found " ++ t.display))

/-- The `while let Some(postfix)` loop of `parse_expression`. -/
def parse_postfix_ops (fuel : Nat) (min_prec : Nat) (lhs : Expression) (ts : Tokens) :
    Except Error (Expression × Tokens) :=
  match fuel with
  | 0 => .error (.Parse "recursion limit exceeded")
  | fuel + 1 =>
    match next_if_operator PostfixOp.ofToken PostfixOp.prec ts min_prec with
    | (some op, ts1) => parse_postfix_ops fuel min_prec (op.build lhs) ts1
    | (none, _) => .ok (lhs, ts)

/-- The `while let Some(infix)` loop of `parse_expression`. -/
def parse_infix_ops (fuel : Nat) (min_prec : Nat) (lhs : Expression) (ts : Tokens) :
    Except Error (Expression × Tokens) :=
  match fuel with
  | 0 => .error (.Parse "recursion limit exceeded")
  | fuel + 1 =>
    match next_if_operator InfixOp.ofToken InfixOp.prec ts min_prec with
    | (some op, ts1) =>
      (parse_expression fuel (op.prec + op.assoc) ts1).bind fun r =>
        parse_infix_ops fuel min_prec (op.build lhs r.1) r.2
    | (none, _) => .ok (lhs, ts)
end

/-- `Parser::parse`: just `parse_expression(0)` — the source never checks
that the token sequence is exhausted afterwards. -/
def parse (fuel : Nat) (ts : Tokens) : Except Error (Expression × Tokens) :=
  parse_expression fuel 0 ts

/-- Parsing a whole input string, with ample fuel (the parser's recursion
depth is bounded by the token count, itself at most the character count). -/
def parseString (s : String) : Except Error Expression :=
  (parse (2 * s.length + 8) (lex s)).map (fun r => r.1)

/-- `Calculator::calculate`: parse, then evaluate.  A parse error becomes
the call's error; `panic` marks an aborted unchecked integer operation. -/
def calculate (input : String) : Outcome :=
  match parseString input with
  | .error e => .err e
  | .ok expr => calculate_expression expr

/-- The spec's single entry point `evaluate` is the crate's
`Calculator::new(input).calculate()`. -/
def evaluate (input : String) : Outcome := calculate input

/-- Evaluation of one binary operation applied to two `Integer` literals. -/
def evalBinII (mk : Expression → Expression → Operation) (a b : Int) : Outcome :=
  calculate_expression (.Operation (mk (.Literal (.Integer a)) (.Literal (.Integer b))))

/-- Evaluation of one binary operation applied to two finite `Float`
literals. -/
def evalBinFF (mk : Expression → Expression → Operation) (x y : Rat) : Outcome :=
  calculate_expression
    (.Operation (mk (.Literal (.Float (.finite x))) (.Literal (.Float (.finite y)))))

/-- Evaluation of one binary operation on an `Integer` and a `Float`. -/
def evalBinIF (mk : Expression → Expression → Operation) (a : Int) (y : Rat) : Outcome :=
  calculate_expression
    (.Operation (mk (.Literal (.Integer a)) (.Literal (.Float (.finite y)))))

/-- Evaluation of one binary operation on a `Float` and an `Integer`. -/
def evalBinFI (mk : Expression → Expression → Operation) (x : Rat) (b : Int) : Outcome :=
  calculate_expression
    (.Operation (mk (.Literal (.Float (.finite x))) (.Literal (.Integer b))))

/-- Evaluation of `Factorial` applied to an `Integer` literal. -/
def evalFact (i : Int) : Outcome :=
  calculate_expression (.Operation (.Factorial (.Literal (.Integer i))))

/-- Evaluation of `Factorial` applied to a `Float` literal. -/
def evalFactF (f : F64) : Outcome :=
  calculate_expression (.Operation (.Factorial (.Literal (.Float f))))

/-- No successful result of this outcome is a `Float` (errors and aborts
are allowed). -/
def noFloatOk : Outcome → Bool
  | .ok (.Float _) => false
  | _ => true

/-- No successful result of this outcome is an `Integer`. -/
def noIntOk : Outcome → Bool
  | .ok (.Integer _) => false
  | _ => true

theorem fitsI64_iff (n : Int) : fitsI64 n = true ↔ i64Min ≤ n ∧ n ≤ i64Max := by
  simp [fitsI64]

theorem i64Prod_append_single (l : List Int) (x : Int) :
    i64Prod (l ++ [x]) = (i64Prod l).bind (fun a => checked_mul a x) := by
  simp [i64Prod, List.foldl_append]

theorem i64Prod_factorial (n : Nat) (h : (Nat.factorial n : Int) ≤ i64Max) :
    i64Prod ((List.range' 1 n).map Int.ofNat) = some ((Nat.factorial n : Int)) := by
  induction n with
  | zero => simp [i64Prod, Nat.factorial]
  | succ n ih =>
    have hmono : (Nat.factorial n : Int) ≤ (Nat.factorial (n + 1) : Int) := by
      exact_mod_cast Nat.factorial_le (Nat.le_succ n)
    have hn := ih (le_trans hmono h)
    rw [List.range'_concat, List.map_append]
    simp only [List.map_cons, List.map_nil]
    rw [i64Prod_append_single, hn]
    have hval : (Nat.factorial n : Int) * ((1 + 1 * n : Nat) : Int) = (Nat.factorial (n + 1) : Int) := by
      push_cast [Nat.factorial_succ]
      ring
    have hfits : fitsI64 ((Nat.factorial n : Int) * ((1 + 1 * n : Nat) : Int)) = true := by
      rw [fitsI64_iff]
      constructor
      · have h0 : (0 : Int) ≤ (Nat.factorial n : Int) * ((1 + 1 * n : Nat) : Int) := by positivity
        have hmin : i64Min ≤ (0 : Int) := by norm_num [i64Min]
        exact le_trans hmin h0
      · rw [hval]
        exact h
    simp only [List.map_cons, List.map_nil, Option.bind, Int.ofNat_eq_coe, checked_mul, hfits,
      if_true]
    rw [hval]

/-- C1: the surface infix `-` token always applies subtraction semantics to
its operands and the surface infix `/` token division semantics, despite the
internal cross-naming: `Token.minus` maps to the variant named `Divide`,
whose evaluator arm subtracts, and `Token.slash` maps to the variant named
`Subtract`, whose evaluator arm divides; end to end,
`evaluate "5-3" = Integer 2` and `evaluate "6/3" = Integer 2`. -/
theorem claim_C1 :
    InfixOp.ofToken Token.minus = some InfixOp.Divide ∧
    InfixOp.ofToken Token.slash = some InfixOp.Subtract ∧
    (∀ a b : Int, fitsI64 (a - b) = true →
      evalBinII .Divide a b = .ok (.Integer (a - b))) ∧
    (∀ a b : Int, b ≠ 0 → ¬(a = i64Min ∧ b = -1) →
      evalBinII .Subtract a b = .ok (.Integer (Int.tdiv a b))) ∧
    evaluate "5-3" = .ok (.Integer 2) ∧
    evaluate "6/3" = .ok (.Integer 2) := by
  refine ⟨rfl, rfl, ?_, ?_, by decide, by decide⟩
  · intro a b h
    simp [evalBinII, calculate_expression, Outcome.bind, Value.ofLiteral, h]
  · intro a b hb hmin
    simp [evalBinII, calculate_expression, Outcome.bind, Value.ofLiteral, hb, hmin]

/-- Witness for C1 at concrete operands. -/
theorem claim_C1_witness :
    evalBinII .Divide 5 3 = .ok (.Integer (5 - 3)) ∧
    evalBinII .Subtract 6 3 = .ok (.Integer (Int.tdiv 6 3)) :=
  ⟨claim_C1.2.2.1 5 3 (by decide), claim_C1.2.2.2.1 6 3 (by decide) (by decide)⟩

/-- C2 (behavior at the failing inputs): `Parser::parse` is only
`parse_expression(0)` and nothing ever checks that the token sequence is
exhausted, so a leftover token is silently ignored: `"1 2"` and `"1 = 2"`
both evaluate to `Integer 1` instead of a `Parse` error. -/
theorem claim_C2_leftover_ignored :
    evaluate "1 2" = .ok (.Integer 1) ∧
    evaluate "1 = 2" = .ok (.Integer 1) := by
  exact ⟨by decide, by decide⟩

/-- C4 (behavior at the failing input): a lexical error reached by
`Parser::next` is surfaced (`"1 + m"`), but one met only by the operator
peek is discarded by `peek().unwrap_or(None)` in `next_if_operator`, so
`"1 m"` evaluates to `Integer 1` and the error about `m` is swallowed. -/
theorem claim_C4_swallowed :
    evaluate "1 + m" = .err (.Parse "Unexpected character m") ∧
    evaluate "1 m" = .ok (.Integer 1) := by
  exact ⟨by decide, by decide⟩

/-- C5: integer addition and multiplication are checked: a representable
exact result is returned as `Integer`, an unrepresentable one is the
`Value` error "Integer overflow"; in particular
`evaluate "9223372036854775807+1"` is that error. -/
theorem claim_C5 :
    (∀ a b : Int, fitsI64 (a + b) = true →
      evalBinII .Add a b = .ok (.Integer (a + b))) ∧
    (∀ a b : Int, fitsI64 (a + b) = false →
      evalBinII .Add a b = .err (.Value "Integer overflow")) ∧
    (∀ a b : Int, fitsI64 (a * b) = true →
      evalBinII .Multiply a b = .ok (.Integer (a * b))) ∧
    (∀ a b : Int, fitsI64 (a * b) = false →
      evalBinII .Multiply a b = .err (.Value "Integer overflow")) ∧
    evaluate "9223372036854775807+1" = .err (.Value "Integer overflow") := by
  refine ⟨?_, ?_, ?_, ?_, by decide⟩ <;>
    intro a b h <;>
    simp [evalBinII, calculate_expression, Outcome.bind, Value.ofLiteral,
      checked_add, checked_mul, h]

/-- Witness for C5 at concrete operands. -/
theorem claim_C5_witness :
    evalBinII .Add 1 2 = .ok (.Integer (1 + 2)) ∧
    evalBinII .Add i64Max 1 = .err (.Value "Integer overflow") ∧
    evalBinII .Multiply i64Max 2 = .err (.Value "Integer overflow") :=
  ⟨claim_C5.1 1 2 (by decide), claim_C5.2.1 i64Max 1 (by decide),
    claim_C5.2.2.2.1 i64Max 2 (by decide)⟩

/-- C3 counterexample: the claim demands a checked integer power for ALL
non-negative exponents, i.e. an "Integer overflow" error whenever the exact
result does not fit in `i64`; but `rhs as u32` truncates, so
`2^4294967296` (exponent `2^32`, truncated to `0`) evaluates to
`Integer 1` although the exact power exceeds `i64::MAX`. -/
theorem claim_C3_counterexample :
    evaluate "2^4294967296" = .ok (.Integer 1) ∧ i64Max < 2 ^ 4294967296 := by
  constructor
  · decide
  · have h1 : i64Max < (2 : Int) ^ 63 := by norm_num [i64Max]
    have h2 : (2 : Int) ^ 63 ≤ 2 ^ 4294967296 :=
      pow_le_pow_right₀ (by norm_num) (by norm_num)
    exact h1.trans_le h2

/-- C3 amended: an Integer base with a non-negative Integer exponent gets a
checked integer power of the exponent's low 32 bits (`rhs as u32`): exact
checked-power behavior for exponents below `2^32`, and exponent reduction
mod `2^32` in general; a negative Integer exponent yields a Float via
floating-point power, and any Float operand yields `powf`. -/
theorem claim_C3_amended :
    (∀ a b : Int, 0 ≤ b → b < 2 ^ 32 → fitsI64 (a ^ b.toNat) = true →
      evalBinII .Exponentiate a b = .ok (.Integer (a ^ b.toNat))) ∧
    (∀ a b : Int, 0 ≤ b → b < 2 ^ 32 → fitsI64 (a ^ b.toNat) = false →
      evalBinII .Exponentiate a b = .err (.Value "Integer overflow")) ∧
    (∀ a b : Int, 0 ≤ b →
      evalBinII .Exponentiate a b = evalBinII .Exponentiate a (b % 2 ^ 32)) ∧
    (∀ a b : Int, b < 0 →
      evalBinII .Exponentiate a b = .ok (.Float ((F64.ofInt a).pow (F64.ofInt b)))) ∧
    (∀ x y : Rat,
      evalBinFF .Exponentiate x y = .ok (.Float (F64.pow (.finite x) (.finite y)))) ∧
    (∀ (a : Int) (y : Rat),
      evalBinIF .Exponentiate a y = .ok (.Float ((F64.ofInt a).pow (.finite y)))) ∧
    (∀ (x : Rat) (b : Int),
      evalBinFI .Exponentiate x b = .ok (.Float (F64.pow (.finite x) (F64.ofInt b)))) := by
  refine ⟨?_, ?_, ?_, ?_, fun x y => rfl, fun a y => rfl, fun x b => rfl⟩
  · intro a b hb hlt hfits
    have he : b % 4294967296 = b := by omega
    simp [evalBinII, calculate_expression, Outcome.bind, Value.ofLiteral, hb, he,
      checked_pow, hfits]
  · intro a b hb hlt hfits
    have he : b % 4294967296 = b := by omega
    simp [evalBinII, calculate_expression, Outcome.bind, Value.ofLiteral, hb, he,
      checked_pow, hfits]
  · intro a b hb
    have h1 : 0 ≤ b % 4294967296 := by omega
    have h2 : b % 4294967296 % 4294967296 = b % 4294967296 := by omega
    simp [evalBinII, calculate_expression, Outcome.bind, Value.ofLiteral, hb, h1, h2]
  · intro a b hb
    have h : ¬ 0 ≤ b := not_le.mpr hb
    simp [evalBinII, calculate_expression, Outcome.bind, Value.ofLiteral, h]

/-- Witness for C3 at concrete operands. -/
theorem claim_C3_witness :
    evalBinII .Exponentiate 2 10 = .ok (.Integer (2 ^ (10 : Int).toNat)) ∧
    evalBinII .Exponentiate 2 (-1) = .ok (.Float ((F64.ofInt 2).pow (F64.ofInt (-1)))) :=
  ⟨claim_C3_amended.1 2 10 (by decide) (by decide) (by decide),
    claim_C3_amended.2.2.2.1 2 (-1) (by decide)⟩

/-- C6 counterexample: the claim promises the integer remainder for every
nonzero Integer divisor, but at dividend `i64::MIN` and divisor `-1`
(mathematical remainder `0`) the always-checked Rust `%` overflows and
aborts instead of returning a value. -/
theorem claim_C6_counterexample :
    evaluate "(-9223372036854775807-1)%-1" = .panic ∧ Int.tmod i64Min (-1) = 0 := by
  exact ⟨by decide, by decide⟩

/-- C6 amended: Integer division (surface `/`) and modulo by zero are the
`Value` error "Can't divide by zero"; for nonzero Integer divisors — except
dividend `i64::MIN` with divisor `-1`, where both operations abort on
overflow — they return truncating division and the remainder; with a
Float-involving operand a zero divisor is not an error: the IEEE special
value (infinity or NaN) is returned. -/
theorem claim_C6_amended :
    (∀ a : Int, evalBinII .Subtract a 0 = .err (.Value "Can't divide by zero")) ∧
    (∀ a : Int, evalBinII .Modulo a 0 = .err (.Value "Can't divide by zero")) ∧
    (∀ a b : Int, b ≠ 0 → ¬(a = i64Min ∧ b = -1) →
      evalBinII .Subtract a b = .ok (.Integer (Int.tdiv a b)) ∧
      evalBinII .Modulo a b = .ok (.Integer (Int.tmod a b))) ∧
    evalBinII .Subtract i64Min (-1) = .panic ∧
    evalBinII .Modulo i64Min (-1) = .panic ∧
    (∀ x : Rat, x ≠ 0 → evalBinFF .Subtract x 0 = .ok (.Float (.inf (decide (x < 0))))) ∧
    evalBinFF .Subtract 0 0 = .ok (.Float .nan) ∧
    (∀ x : Rat, evalBinFF .Modulo x 0 = .ok (.Float .nan)) ∧
    (∀ a : Int, a ≠ 0 → evalBinIF .Subtract a 0 = .ok (.Float (.inf (decide (a < 0))))) := by
  refine ⟨?_, ?_, ?_, by decide, by decide, ?_, by decide, ?_, ?_⟩
  · intro a
    simp [evalBinII, calculate_expression, Outcome.bind, Value.ofLiteral]
  · intro a
    simp [evalBinII, calculate_expression, Outcome.bind, Value.ofLiteral]
  · intro a b hb hmin
    constructor <;>
      simp [evalBinII, calculate_expression, Outcome.bind, Value.ofLiteral, hb, hmin]
  · intro x hx
    simp [evalBinFF, calculate_expression, Outcome.bind, Value.ofLiteral, F64.div, hx]
  · intro x
    simp [evalBinFF, calculate_expression, Outcome.bind, Value.ofLiteral, F64.rem]
  · intro a ha
    have h2 : decide ((a : Rat) < 0) = decide (a < 0) :=
      decide_eq_decide.mpr Int.cast_lt_zero
    simp [evalBinIF, calculate_expression, Outcome.bind, Value.ofLiteral, F64.div,
      F64.ofInt, Int.cast_eq_zero, ha, h2]

/-- Witness for C6 at concrete operands. -/
theorem claim_C6_witness :
    evalBinII .Subtract 7 (-2) = .ok (.Integer (Int.tdiv 7 (-2))) ∧
    evalBinII .Modulo 7 (-2) = .ok (.Integer (Int.tmod 7 (-2))) ∧
    evalBinFF .Subtract 1 0 = .ok (.Float (.inf (decide ((1 : Rat) < 0)))) ∧
    evalBinIF .Subtract (-3) 0 = .ok (.Float (.inf (decide ((-3 : Int) < 0)))) := by
  obtain ⟨-, -, h3, -, -, h6, -, -, h9⟩ := claim_C6_amended
  obtain ⟨hd, hm⟩ := h3 7 (-2) (by decide) (by decide)
  exact ⟨hd, hm, h6 1 (by norm_num), h9 (-3) (by decide)⟩

/-- C7 counterexample: the claim defines factorial for every non-negative
Integer as the product of `1..=n`, but at `n = 21` that product exceeds
`i64::MAX` and the unchecked multiplication aborts instead of producing a
value (or an error). -/
theorem claim_C7_counterexample :
    evaluate "21!" = .panic ∧ i64Max < (Nat.factorial 21 : Int) := by
  exact ⟨by decide, by decide⟩

/-- C7 amended: factorial of a non-negative Integer `n` whose exact
factorial fits in `i64` (`n ≤ 20`) is the product of `1..=n` (so `0! = 1`,
`evaluate "4!" = Integer 24`); for larger `n` the unchecked product aborts
(`evaluate "21!"` panics, no `Value` error); a negative Integer yields the
"Can't take factorial of negative number" error (and `evaluate "-1!"` hits
it, prefix minus binding tighter than postfix `!`); a Float operand yields
a `Value` error naming the offending value. -/
theorem claim_C7_amended :
    (∀ i : Int, 0 ≤ i → (Nat.factorial i.toNat : Int) ≤ i64Max →
      evalFact i = .ok (.Integer (Nat.factorial i.toNat))) ∧
    (∀ i : Int, i < 0 →
      evalFact i = .err (.Value "Can't take factorial of negative number")) ∧
    (∀ f : F64,
      evalFactF f = .err (.Value ("Can't take factorial of " ++ Value.display (.Float f)))) ∧
    evaluate "4!" = .ok (.Integer 24) ∧
    evaluate "0!" = .ok (.Integer 1) ∧
    evaluate "-1!" = .err (.Value "Can't take factorial of negative number") ∧
    evaluate "21!" = .panic := by
  refine ⟨?_, ?_, fun f => rfl, by decide, by decide, by decide, by decide⟩
  · intro i h0 hf
    have hneg : ¬ i < 0 := not_lt.mpr h0
    simp [evalFact, calculate_expression, Outcome.bind, Value.ofLiteral, hneg,
      i64Prod_factorial i.toNat hf]
  · intro i h
    simp [evalFact, calculate_expression, Outcome.bind, Value.ofLiteral, h]

unseal Rat.mul Rat.inv in
/-- Witness for C7 at concrete operands (the Float case names the value:
`1.5`). -/
theorem claim_C7_witness :
    evalFact 4 = .ok (.Integer (Nat.factorial (4 : Int).toNat)) ∧
    evalFact (-1) = .err (.Value "Can't take factorial of negative number") ∧
    evalFactF (.finite (3 / 2)) =
      .err (.Value ("Can't take factorial of " ++ Value.display (.Float (.finite (3 / 2))))) ∧
    Value.display (.Float (.finite (3 / 2))) = "1.5" :=
  ⟨claim_C7_amended.1 4 (by decide) (by decide),
    claim_C7_amended.2.1 (-1) (by decide),
    claim_C7_amended.2.2.1 (.finite (3 / 2)),
    by decide⟩

/-- C8 counterexample: the claimed table puts `*`, `/`, `%` at precedence 6
above `+`, `-` at 5, which entails `1-2*3 = 1-(2*3) = -5`; but the infix
table is keyed by the cross-named variants, so the surface `-` token gets
the `Divide` variant's precedence 6 and the surface `/` token the
`Subtract` variant's precedence 5, and `1-2*3` evaluates as
`(1-2)*3 = -3`. -/
theorem claim_C8_counterexample :
    evaluate "1-2*3" = .ok (.Integer (-3)) ∧
    evaluate "1-2*3" ≠ .ok (.Integer (1 - 2 * 3)) ∧
    (InfixOp.ofToken Token.minus).map InfixOp.prec = some 6 ∧
    (InfixOp.ofToken Token.slash).map InfixOp.prec = some 5 := by
  exact ⟨by decide, by decide, rfl, rfl⟩

/-- C8 amended: exponentiation is right-associative and every other infix
operator left-associative; the precedences attached to the surface tokens
are `^` at 7, then `*`, `%` and `-` at 6, then `+` and `/` at 5 (the
cross-naming swaps the precedences of surface `-` and `/`).  The claim's
examples still hold: `2^3^2 = 2^(3^2) = 512` (not `(2^3)^2 = 64`) and
`(1+1)*2+4! = 28`; but e.g. `1-2*3 = (1-2)*3 = -3` and
`1+6/2 = (1+6)/2 = 3`. -/
theorem claim_C8_amended :
    InfixOp.assoc .Exponentiate = ASSOC_RIGHT ∧
    InfixOp.assoc .Add = ASSOC_LEFT ∧
    InfixOp.assoc .Subtract = ASSOC_LEFT ∧
    InfixOp.assoc .Multiply = ASSOC_LEFT ∧
    InfixOp.assoc .Divide = ASSOC_LEFT ∧
    InfixOp.assoc .Modulo = ASSOC_LEFT ∧
    PrefixOp.prec .Minus = 9 ∧ PrefixOp.assoc .Minus = ASSOC_RIGHT ∧
    PostfixOp.prec .Factorial = 8 ∧ PostfixOp.assoc .Factorial = ASSOC_LEFT ∧
    (InfixOp.ofToken Token.caret).map InfixOp.prec = some 7 ∧
    (InfixOp.ofToken Token.asterisk).map InfixOp.prec = some 6 ∧
    (InfixOp.ofToken Token.percent).map InfixOp.prec = some 6 ∧
    (InfixOp.ofToken Token.minus).map InfixOp.prec = some 6 ∧
    (InfixOp.ofToken Token.plus).map InfixOp.prec = some 5 ∧
    (InfixOp.ofToken Token.slash).map InfixOp.prec = some 5 ∧
    evaluate "2^3^2" = .ok (.Integer 512) ∧
    evaluate "(2^3)^2" = .ok (.Integer 64) ∧
    evaluate "(1+1)*2+4!" = .ok (.Integer 28) ∧
    evaluate "1-2*3" = .ok (.Integer (-3)) ∧
    evaluate "1+6/2" = .ok (.Integer 3) := by
  refine ⟨rfl, rfl, rfl, rfl, rfl, rfl, rfl, rfl, rfl, rfl, rfl, rfl, rfl, rfl, rfl, rfl,
    ?_, ?_, ?_, ?_, ?_⟩ <;> decide

unseal Rat.mul Rat.inv in
/-- C9 counterexample: with both operands Integer and the operation
succeeding, the promotion rule demands an Integer result; but an Integer
base with a negative Integer exponent yields a Float:
`evaluate "2^-1" = Float 0.5`. -/
theorem claim_C9_counterexample :
    evaluate "2^-1" = .ok (.Float (.finite (1 / 2))) := by decide

unseal Rat.add Rat.mul Rat.inv in
/-- C9 amended: the promotion rule holds for every binary operation except
`Exponentiate` on an Integer base with a negative Integer exponent (which
yields a Float): two Integer operands never successfully produce a Float
(outside that exception), and any Float-involving operand pair never
produces an Integer; end to end,
`evaluate "(1.1+1.1)*2+4!" = Float 28.4`. -/
theorem claim_C9_amended :
    (∀ mk ∈ ([.Add, .Divide, .Multiply, .Modulo, .Subtract] :
        List (Expression → Expression → Operation)),
      ∀ a b : Int, noFloatOk (evalBinII mk a b) = true) ∧
    (∀ a b : Int, 0 ≤ b → noFloatOk (evalBinII .Exponentiate a b) = true) ∧
    (∀ a b : Int, b < 0 →
      evalBinII .Exponentiate a b = .ok (.Float ((F64.ofInt a).pow (F64.ofInt b)))) ∧
    (∀ mk ∈ ([.Add, .Divide, .Exponentiate, .Multiply, .Modulo, .Subtract] :
        List (Expression → Expression → Operation)),
      (∀ x y : Rat, noIntOk (evalBinFF mk x y) = true) ∧
      (∀ (a : Int) (y : Rat), noIntOk (evalBinIF mk a y) = true) ∧
      (∀ (x : Rat) (b : Int), noIntOk (evalBinFI mk x b) = true)) ∧
    evaluate "(1.1+1.1)*2+4!" = .ok (.Float (.finite (142 / 5))) := by
  refine ⟨?_, ?_, ?_, ?_, by decide⟩
  · intro mk hmk a b
    fin_cases hmk <;>
      simp only [evalBinII, calculate_expression, Outcome.bind, Value.ofLiteral] <;>
      (repeat' split) <;> rfl
  · intro a b hb
    simp only [evalBinII, calculate_expression, Outcome.bind, Value.ofLiteral, if_pos hb]
    (repeat' split) <;> rfl
  · intro a b hb
    have h : ¬ 0 ≤ b := not_le.mpr hb
    simp [evalBinII, calculate_expression, Outcome.bind, Value.ofLiteral, h]
  · intro mk hmk
    fin_cases hmk <;> exact ⟨fun x y => rfl, fun a y => rfl, fun x b => rfl⟩

/-- Witness for C9 at concrete operands. -/
theorem claim_C9_witness :
    noFloatOk (evalBinII .Add 1 2) = true ∧
    noFloatOk (evalBinII .Exponentiate 2 10) = true ∧
    evalBinII .Exponentiate 2 (-1) = .ok (.Float ((F64.ofInt 2).pow (F64.ofInt (-1)))) ∧
    noIntOk (evalBinFF .Multiply 1 2) = true := by
  refine ⟨claim_C9_amended.1 .Add (by simp) 1 2, claim_C9_amended.2.1 2 10 (by decide),
    claim_C9_amended.2.2.1 2 (-1) (by decide),
    (claim_C9_amended.2.2.2.1 .Multiply (by simp)).1 1 2⟩

/-- C10: the unchecked `i64` operations in the evaluator — the `Divide`
arm's subtraction, negation of `i64::MIN`, the always-checked division and
remainder at `(i64::MIN, -1)`, and the factorial product — abort instead
of returning an "Integer overflow" `Value` error on expressible inputs
whose subexpressions are in-range `i64` values. -/
theorem claim_C10 :
    evaluate "(-9223372036854775807-1)/-1" = .panic ∧
    evaluate "(-9223372036854775807-1)%-1" = .panic ∧
    evaluate "0-(-9223372036854775807-1)" = .panic ∧
    evaluate "-(-9223372036854775807-1)" = .panic ∧
    evaluate "21!" = .panic ∧
    (∀ e : Error, (Outcome.panic = Outcome.err e) = False) := by
  exact ⟨by decide, by decide, by decide, by decide, by decide, fun e => by simp⟩
